import Mathlib

/-!
Verification development for the pdf-processor core (tokenizer, file-structure
parser, object resolver, page builder), shallowly embedded in Lean.

Modelling conventions, shared by the whole file:
* JS numbers are modelled as `Int`; every number occurring in the verified
  claims is integer-valued.
* JS strings are modelled as `String` where only their identity matters and as
  `List Nat` of UTF-16 code units where the tokenizer builds them byte by byte.
* JS `Map` objects are modelled as association lists (first match wins on
  lookup, in-place replacement on update), preserving insertion order.
* The resolver mutates the objects stored in its table in place
  (`pdfObject.value = ...`), and returns the very object stored in the map, so
  object identity is observable.  The model therefore threads an explicit
  resolver state and represents the value returned by
  `resolveIndirectReference` by its table key; a `ptr` node inside a value is
  an alias to the table entry with that key.
* Exceptions are modelled by an error result; an extra `out` result marks fuel
  exhaustion of the fuel-indexed recursion (the sufficiency of a concrete fuel
  is proved separately, which is the termination content of the source).
-/

/-- The PDF object data model of `PDFTypes`/`FileStructureParser`: primitives,
arrays, dictionaries (insertion-ordered association lists), streams, indirect
references, indirect objects, plus `ptr`, an alias to the `IndirectObject`
stored in the resolver's table under the given key (JS object identity). -/
inductive PDFObject : Type where
  | null : PDFObject
  | bool (b : Bool) : PDFObject
  | num (n : Int) : PDFObject
  | str (s : String) : PDFObject
  | array (items : List PDFObject) : PDFObject
  | dict (entries : List (String × PDFObject)) : PDFObject
  | stream (sdict : List (String × PDFObject)) (data : List Nat) : PDFObject
  | ref (objectNumber generationNumber : Int) : PDFObject
  | indirect (objectNumber generationNumber : Int) (value : PDFObject) : PDFObject
  | ptr (key : Int × Int) : PDFObject

/-- The classification answers of `PDFObjectResolver.getPDFObjectType`. -/
inductive PDFType : Type where
  | tNull | tNumber | tBoolean | tString | tArray
  | tDictionary | tIndirectObject | tReference | tStream
  deriving DecidableEq

/-- Models `PDFObjectResolver.getPDFObjectType`: dispatch on the structural
tag.  A `ptr` alias points at a stored `IndirectObject`, which carries both a
`value` and an `objectNumber` property, hence classifies as indirect-object. -/
def getPDFObjectType : PDFObject → PDFType
  | .null => .tNull
  | .num _ => .tNumber
  | .bool _ => .tBoolean
  | .str _ => .tString
  | .array _ => .tArray
  | .stream _ _ => .tStream
  | .indirect _ _ _ => .tIndirectObject
  | .ptr _ => .tIndirectObject
  | .ref _ _ => .tReference
  | .dict _ => .tDictionary

/-- Resolver state: the object table (key `(objectNumber, generationNumber)`
to the `value` field of the stored `IndirectObject`; the two numbers of the
stored object are determined by the key), the set of cached keys (the cache of
`PDFObjectResolver` always stores the very object that sits in the table, so
only the key set matters), and the visiting stack. -/
structure RState : Type where
  table : List ((Int × Int) × PDFObject)
  cache : List (Int × Int)
  stack : List (Int × Int)

/-- Errors thrown by the resolver (and by the page builder's use of it):
unknown reference (`none` for the `undefined undefined` key produced by
dereferencing a non-reference), circular reference, and a JS `TypeError` from
calling `.get` on a non-`Map`. -/
inductive RErr : Type where
  | unknownRef (k : Option (Int × Int)) : RErr
  | circular (k : Int × Int) : RErr
  | typeError : RErr
  deriving DecidableEq

/-- Result of a fuel-indexed computation: a value, a thrown error, or fuel
exhaustion. -/
inductive RRes (α : Type) : Type where
  | ok (a : α) : RRes α
  | err (e : RErr) : RRes α
  | out : RRes α

/-- First-match lookup in an association list (JS `Map.get`). -/
def tlookup : List ((Int × Int) × PDFObject) → (Int × Int) → Option PDFObject
  | [], _ => none
  | (k', v) :: rest, k => if k' = k then some v else tlookup rest k

/-- In-place update of the first entry with the given key (mutation of the
`value` field of the stored object); the key list is unchanged. -/
def tupdate : List ((Int × Int) × PDFObject) → (Int × Int) → PDFObject →
    List ((Int × Int) × PDFObject)
  | [], _, _ => []
  | (k', v') :: rest, k, v =>
      if k' = k then (k', v) :: rest else (k', v') :: tupdate rest k v

mutual

/-- Models `PDFObjectResolver.resolveIndirectReference`.  The returned
`(Int × Int)` is the key of the table entry that the source returns by
identity (every `return` in the source returns the object stored in the
table under `key`).  Branch order follows the source: cache hit, unknown
reference, cycle check, then push the key, deep-resolve and mutate the table
entry in place, cache, pop.  One unit of fuel is consumed per call. -/
def resolveIndirectReference (fuel : Nat) (key : Int × Int)
    (isDeepResolve : Bool) (silentCircular : Bool) (s : RState) :
    RRes ((Int × Int) × RState) :=
  match fuel with
  | 0 => .out
  | fuel + 1 =>
    if key ∈ s.cache then .ok (key, s)
    else if (tlookup s.table key).isNone then .err (.unknownRef (some key))
    else if key ∈ s.stack then
      (if silentCircular then .ok (key, s) else .err (.circular key))
    else
      let s1 : RState := { s with stack := key :: s.stack }
      let v := (tlookup s.table key).getD .null
      if isDeepResolve then
        match deepResolve fuel v silentCircular s1 with
        | .ok (v2, s2) =>
            .ok (key, { table := tupdate s2.table key v2,
                        cache := key :: s2.cache,
                        stack := s2.stack.erase key })
        | .err e => .err e
        | .out => .out
      else
        .ok (key, { s1 with stack := s1.stack.erase key })
termination_by (fuel, 0)
decreasing_by all_goals (simp_wf; omega)

/-- Models `PDFObjectResolver.deepResolve`: primitives and streams are
returned as-is, arrays and dictionaries rebuilt element by element, nested
indirect objects copied without descending into their value, references
resolved deeply (the alias returned by `resolveIndirectReference` is placed
in the tree as a `ptr`). -/
def deepResolve (fuel : Nat) (v : PDFObject) (silentCircular : Bool)
    (s : RState) : RRes (PDFObject × RState) :=
  match v with
  | .str a => .ok (.str a, s)
  | .bool b => .ok (.bool b, s)
  | .null => .ok (.null, s)
  | .num n => .ok (.num n, s)
  | .stream d a => .ok (.stream d a, s)
  | .array items =>
    match deepResolveList fuel items silentCircular s with
    | .ok (items2, s2) => .ok (.array items2, s2)
    | .err e => .err e
    | .out => .out
  | .dict entries =>
    match deepResolveEntries fuel entries silentCircular s with
    | .ok (entries2, s2) => .ok (.dict entries2, s2)
    | .err e => .err e
    | .out => .out
  | .indirect o g value => .ok (.indirect o g value, s)
  | .ptr k => .ok (.indirect k.1 k.2 ((tlookup s.table k).getD .null), s)
  | .ref o g =>
    match resolveIndirectReference fuel (o, g) true silentCircular s with
    | .ok (k2, s2) => .ok (.ptr k2, s2)
    | .err e => .err e
    | .out => .out
termination_by (fuel, sizeOf v + 1)
decreasing_by all_goals (simp_wf; omega)

/-- The element-wise traversal of `Array.map` inside `deepResolve`, with the
thrown-exception early exit made explicit. -/
def deepResolveList (fuel : Nat) (items : List PDFObject)
    (silentCircular : Bool) (s : RState) : RRes (List PDFObject × RState) :=
  match items with
  | [] => .ok ([], s)
  | v :: rest =>
    match deepResolve fuel v silentCircular s with
    | .ok (v2, s2) =>
      match deepResolveList fuel rest silentCircular s2 with
      | .ok (rest2, s3) => .ok (v2 :: rest2, s3)
      | .err e => .err e
      | .out => .out
    | .err e => .err e
    | .out => .out
termination_by (fuel, sizeOf items + 1)
decreasing_by all_goals (simp_wf; omega)

/-- The entry-wise traversal of the dictionary rebuild inside `deepResolve`. -/
def deepResolveEntries (fuel : Nat) (entries : List (String × PDFObject))
    (silentCircular : Bool) (s : RState) :
    RRes (List (String × PDFObject) × RState) :=
  match entries with
  | [] => .ok ([], s)
  | (k, v) :: rest =>
    match deepResolve fuel v silentCircular s with
    | .ok (v2, s2) =>
      match deepResolveEntries fuel rest silentCircular s2 with
      | .ok (rest2, s3) => .ok ((k, v2) :: rest2, s3)
      | .err e => .err e
      | .out => .out
    | .err e => .err e
    | .out => .out
termination_by (fuel, sizeOf entries + 1)
decreasing_by all_goals (simp_wf; omega)

end

/-- Keys of the table not on the visiting stack. -/
def keysOutside (s : RState) : Nat :=
  ((s.table.map Prod.fst).filter (fun k => decide (k ∉ s.stack))).length

theorem tupdate_map_fst (t : List ((Int × Int) × PDFObject)) (k : Int × Int)
    (v : PDFObject) : (tupdate t k v).map Prod.fst = t.map Prod.fst := by
  induction t with
  | nil => simp [tupdate]
  | cons hd tl ih =>
    obtain ⟨k', v'⟩ := hd
    by_cases h : k' = k <;> simp [tupdate, h, ih]

theorem resolver_preserves :
    (∀ f k d c s k' s', resolveIndirectReference f k d c s = .ok (k', s') →
      s'.stack = s.stack ∧ s'.table.map Prod.fst = s.table.map Prod.fst)
    ∧ (∀ f v c s v' s', deepResolve f v c s = .ok (v', s') →
      s'.stack = s.stack ∧ s'.table.map Prod.fst = s.table.map Prod.fst)
    ∧ (∀ f es c s es' s', deepResolveEntries f es c s = .ok (es', s') →
      s'.stack = s.stack ∧ s'.table.map Prod.fst = s.table.map Prod.fst)
    ∧ (∀ f its c s its' s', deepResolveList f its c s = .ok (its', s') →
      s'.stack = s.stack ∧ s'.table.map Prod.fst = s.table.map Prod.fst) := by
  apply resolveIndirectReference.mutual_induct
    (fun f k d c s => ∀ k' s', resolveIndirectReference f k d c s = .ok (k', s') →
      s'.stack = s.stack ∧ s'.table.map Prod.fst = s.table.map Prod.fst)
    (fun f v c s => ∀ v' s', deepResolve f v c s = .ok (v', s') →
      s'.stack = s.stack ∧ s'.table.map Prod.fst = s.table.map Prod.fst)
    (fun f es c s => ∀ es' s', deepResolveEntries f es c s = .ok (es', s') →
      s'.stack = s.stack ∧ s'.table.map Prod.fst = s.table.map Prod.fst)
    (fun f its c s => ∀ its' s', deepResolveList f its c s = .ok (its', s') →
      s'.stack = s.stack ∧ s'.table.map Prod.fst = s.table.map Prod.fst)
  all_goals try (intros; simp_all [resolveIndirectReference, deepResolve, deepResolveList,
    deepResolveEntries, tupdate_map_fst]; done)
  case case6 =>
    intro key c s fuel h1 h2 h3 s1 v v2 s2 hdeep ih k' s' hres
    obtain ⟨hst, htb⟩ := ih _ _ hdeep
    simp [resolveIndirectReference, h1, h2, h3, hdeep] at hres
    obtain ⟨hk, hs'⟩ := hres
    subst hs'
    refine ⟨?_, ?_⟩
    · simp only [hst]
      simp [s1]
    · simp only [tupdate_map_fst, htb]
  case case9 =>
    intro key d c s fuel h1 h2 h3 h4 k' s' hres
    simp [resolveIndirectReference, h1, h2, h3, h4] at hres
    obtain ⟨hk, hs'⟩ := hres
    subst hs'
    simp

theorem tlookup_mem (t : List ((Int × Int) × PDFObject)) (k : Int × Int)
    (h : ¬(tlookup t k).isNone = true) : k ∈ t.map Prod.fst := by
  induction t with
  | nil => simp [tlookup] at h
  | cons hd tl ih =>
    obtain ⟨k', v'⟩ := hd
    by_cases hk : k' = k
    · simp [hk]
    · simp only [tlookup, if_neg hk] at h
      simp only [List.map_cons, List.mem_cons]
      exact Or.inr (ih h)

theorem filter_cons_stack_lt (ks : List (Int × Int)) (key : Int × Int)
    (stack : List (Int × Int)) (hmem : key ∈ ks) (hstk : key ∉ stack) :
    (ks.filter fun k => decide (k ∉ key :: stack)).length <
      (ks.filter fun k => decide (k ∉ stack)).length := by
  induction ks with
  | nil => simp at hmem
  | cons x xs ih =>
    have hmono : (xs.filter fun k => decide (k ∉ key :: stack)).length ≤
        (xs.filter fun k => decide (k ∉ stack)).length := by
      refine List.Sublist.length_le (List.monotone_filter_right _ ?_)
      intro a ha
      simp at ha ⊢
      exact fun h => ha.2 h
    rw [List.filter_cons, List.filter_cons]
    by_cases hx : x = key
    · subst hx
      have h1 : (decide (x ∉ x :: stack)) = false := by simp
      have h2 : (decide (x ∉ stack)) = true := by simpa using hstk
      simp only [h1, h2, if_false, if_true, List.length_cons]
      exact Nat.lt_succ_of_le hmono
    · rcases List.mem_cons.mp hmem with h | hmem2
      · exact absurd h.symm hx
      · by_cases hxs : x ∈ stack
        · have h1 : (decide (x ∉ key :: stack)) = false := by simp [hxs]
          have h2 : (decide (x ∉ stack)) = false := by simp [hxs]
          simp only [h1, h2, if_false]
          exact ih hmem2
        · have h1 : (decide (x ∉ key :: stack)) = true := by simp [hxs, hx]
          have h2 : (decide (x ∉ stack)) = true := by simpa using hxs
          simp only [h1, h2, if_true, List.length_cons]
          exact Nat.succ_lt_succ (ih hmem2)

theorem keysOutside_push_lt (s : RState) (key : Int × Int)
    (hmem : ¬(tlookup s.table key).isNone = true) (hstk : key ∉ s.stack) :
    keysOutside { s with stack := key :: s.stack } < keysOutside s := by
  exact filter_cons_stack_lt _ key s.stack (tlookup_mem _ _ hmem) hstk

theorem keysOutside_congr (s s' : RState) (h1 : s'.stack = s.stack)
    (h2 : s'.table.map Prod.fst = s.table.map Prod.fst) :
    keysOutside s' = keysOutside s := by
  unfold keysOutside
  rw [h2, h1]

theorem resolver_noOut :
    (∀ f k d c s, keysOutside s < f → resolveIndirectReference f k d c s ≠ .out)
    ∧ (∀ f v c s, keysOutside s < f → deepResolve f v c s ≠ .out)
    ∧ (∀ f es c s, keysOutside s < f → deepResolveEntries f es c s ≠ .out)
    ∧ (∀ f its c s, keysOutside s < f → deepResolveList f its c s ≠ .out) := by
  apply resolveIndirectReference.mutual_induct
    (fun f k d c s => keysOutside s < f → resolveIndirectReference f k d c s ≠ .out)
    (fun f v c s => keysOutside s < f → deepResolve f v c s ≠ .out)
    (fun f es c s => keysOutside s < f → deepResolveEntries f es c s ≠ .out)
    (fun f its c s => keysOutside s < f → deepResolveList f its c s ≠ .out)
  all_goals try (intros; simp_all [resolveIndirectReference, deepResolve, deepResolveList,
    deepResolveEntries]; done)
  case case8 =>
    intro key c s fuel h1 h2 h3 s1 v hdeep ih hb
    have hlt : keysOutside s1 < fuel := by
      have := keysOutside_push_lt s key h2 h3
      simp only [s1]
      omega
    exact absurd hdeep (ih hlt)
  case case29 =>
    intro fuel c s k v rest v2 s2 hd hout ih2 ih4 hb
    obtain ⟨hst, htb⟩ := resolver_preserves.2.1 _ _ _ _ _ _ hd
    have heq : keysOutside s2 = keysOutside s := keysOutside_congr s s2 hst htb
    exact absurd hout (ih4 (by omega))
  case case35 =>
    intro fuel c s v rest v2 s2 hd hout ih2 ih4 hb
    obtain ⟨hst, htb⟩ := resolver_preserves.2.1 _ _ _ _ _ _ hd
    have heq : keysOutside s2 = keysOutside s := keysOutside_congr s s2 hst htb
    exact absurd hout (ih4 (by omega))

theorem shallow_preserves_state (f : Nat) (k : Int × Int) (c : Bool) (s : RState)
    (k' : Int × Int) (s' : RState)
    (h : resolveIndirectReference f k false c s = .ok (k', s')) :
    k' = k ∧ s' = s := by
  match f with
  | 0 => simp [resolveIndirectReference] at h
  | fuel + 1 =>
    by_cases h1 : k ∈ s.cache
    · simp only [resolveIndirectReference, if_pos h1, RRes.ok.injEq, Prod.mk.injEq] at h
      exact ⟨h.1.symm, h.2.symm⟩
    · by_cases h2 : (tlookup s.table k).isNone
      · simp [resolveIndirectReference, h1, h2] at h
      · by_cases h3 : k ∈ s.stack
        · by_cases h4 : c
          · simp only [resolveIndirectReference, if_neg h1, if_neg h2, if_pos h3, if_pos h4,
              RRes.ok.injEq, Prod.mk.injEq] at h
            exact ⟨h.1.symm, h.2.symm⟩
          · simp [resolveIndirectReference, h1, h2, h3, h4] at h
        · simp only [resolveIndirectReference, if_neg h1, if_neg h2, if_neg h3,
            Bool.false_eq_true, if_false, RRes.ok.injEq, Prod.mk.injEq,
            List.erase_cons_head] at h
          refine ⟨h.1.symm, ?_⟩
          rw [← h.2]

theorem closing_edge (f : Nat) (k : Int × Int) (d : Bool) (s : RState)
    (v : PDFObject) (hc : k ∉ s.cache) (hl : tlookup s.table k = some v)
    (hs : k ∈ s.stack) :
    resolveIndirectReference (f + 1) k d true s = .ok (k, s) ∧
      resolveIndirectReference (f + 1) k d false s = .err (.circular k) := by
  constructor <;> simp [resolveIndirectReference, hc, hl, hs]

theorem shallow_fresh (f : Nat) (c : Bool) (s : RState) (k : Int × Int)
    (v : PDFObject) (hstk : s.stack = []) (hl : tlookup s.table k = some v) :
    resolveIndirectReference (f + 1) k false c s = .ok (k, s) := by
  by_cases h1 : k ∈ s.cache
  · simp [resolveIndirectReference, h1]
  · have h3 : k ∉ s.stack := by simp [hstk]
    simp [resolveIndirectReference, h1, hl, h3]

theorem deep_idempotent (f : Nat) (k : Int × Int) (s : RState)
    (k' : Int × Int) (s1 : RState)
    (h : resolveIndirectReference f k true true s = .ok (k', s1)) :
    ∀ f2 : Nat, resolveIndirectReference (f2 + 1) k true true s1 = .ok (k', s1) := by
  intro f2
  match f with
  | 0 => simp [resolveIndirectReference] at h
  | fuel + 1 =>
    by_cases h1 : k ∈ s.cache
    · simp only [resolveIndirectReference, if_pos h1, RRes.ok.injEq, Prod.mk.injEq] at h
      obtain ⟨rfl, rfl⟩ := h
      simp [resolveIndirectReference, h1]
    · by_cases h2 : (tlookup s.table k).isNone
      · simp [resolveIndirectReference, h1, h2] at h
      · by_cases h3 : k ∈ s.stack
        · simp only [resolveIndirectReference, if_neg h1, if_neg h2, if_pos h3, if_pos rfl,
            RRes.ok.injEq, Prod.mk.injEq] at h
          obtain ⟨rfl, rfl⟩ := h
          simp [resolveIndirectReference, h1, h2, h3]
        · simp only [resolveIndirectReference, if_neg h1, if_neg h2, if_neg h3] at h
          revert h
          cases hd : deepResolve fuel ((tlookup s.table k).getD .null) true
              { s with stack := k :: s.stack } with
          | ok p =>
            obtain ⟨v2, s2⟩ := p
            intro h
            simp only [RRes.ok.injEq, Prod.mk.injEq] at h
            obtain ⟨rfl, rfl⟩ := h
            have hmem : k ∈ (RState.mk (tupdate s2.table k v2) (k :: s2.cache)
                (s2.stack.erase k)).cache := by simp
            simp [resolveIndirectReference, hmem]
          | err e => intro h; simp at h
          | out => intro h; simp at h

/-- Object table with a nested reference: object 1 is a dictionary whose
entry `A` references object 2 (an integer). -/
def exTableA : List ((Int × Int) × PDFObject) :=
  [((1, 0), .dict [("A", .ref 2 0)]), ((2, 0), .num 7)]

/-- Fresh resolver over `exTableA`. -/
def exStateA : RState := { table := exTableA, cache := [], stack := [] }

/-- Resolver state after `resolve(1 0 R, Deep, Silent)` on `exStateA`: the
stored value of object 1 has been rewritten in place. -/
def exStateA2 : RState :=
  { table := [((1, 0), .dict [("A", .ptr (2, 0))]), ((2, 0), .num 7)],
    cache := [(1, 0), (2, 0)], stack := [] }

/-- C1 counterexample: the claim "resolveIndirectReference leaves every entry
of the object table unchanged for every mode" is false: a deep resolution of
object 1 (whose value contains the reference `2 0 R`) rewrites the stored
value of object 1 in place, replacing the nested reference with the resolved
object. -/
theorem claim_C1_counterexample :
    resolveIndirectReference 3 ((1 : Int), (0 : Int)) true true exStateA =
      .ok (((1 : Int), (0 : Int)), exStateA2)
    ∧ tlookup exStateA.table (1, 0) = some (.dict [("A", .ref 2 0)])
    ∧ tlookup exStateA2.table (1, 0) ≠ some (.dict [("A", .ref 2 0)]) := by
  refine ⟨?_, ?_, ?_⟩
  · simp [resolveIndirectReference, deepResolve, deepResolveEntries, exStateA, exStateA2,
      exTableA, tlookup, tupdate, List.erase]
  · simp [exStateA, exTableA, tlookup]
  · simp [exStateA2, tlookup]

/-- Table with a reference cycle hidden inside a stream dictionary: object 1
is a stream whose dictionary entry `A` references object 1 itself. -/
def exTableS : List ((Int × Int) × PDFObject) :=
  [((1, 0), .stream [("A", .ref 1 0)] [])]

/-- Fresh resolver over `exTableS`. -/
def exStateS : RState := { table := exTableS, cache := [], stack := [] }

/-- C2 counterexample: the claim "for every graph containing a reference
cycle reachable from r, resolve(r, Deep, Error) raises CircularReferenceError"
is false: a self-cycle sitting inside a stream dictionary is never traversed
(deepResolve returns streams as-is), so Error-mode deep resolution completes
without raising. -/
theorem claim_C2_counterexample :
    tlookup exStateS.table (1, 0) = some (.stream [("A", .ref 1 0)] [])
    ∧ resolveIndirectReference 2 ((1 : Int), (0 : Int)) true false exStateS =
        .ok (((1 : Int), (0 : Int)),
          { table := exTableS, cache := [(1, 0)], stack := [] })
    ∧ (∀ e : RErr, resolveIndirectReference 2 ((1 : Int), (0 : Int)) true false exStateS ≠
        .err e) := by
  refine ⟨?_, ?_, ?_⟩
  · simp [exStateS, exTableS, tlookup]
  · simp [resolveIndirectReference, deepResolve, exStateS, exTableS, tlookup, tupdate,
      List.erase]
  · intro e
    simp [resolveIndirectReference, deepResolve, exStateS, exTableS, tlookup, tupdate,
      List.erase]

/-- Token kinds of `PDFTokenizer`/`FileStructureParser` (`TokenType`). -/
inductive TokenType : Type where
  | INTEGER | REAL | BOOLEAN | NAME | STRING | HEX_STRING
  | ARRAY_START | ARRAY_END | DICT_START | DICT_END | NULL
  | INDIRECT_REFERENCE | STREAM | OBJ_START | OBJ_END | KEYWORD | EOF | HEADER
  deriving DecidableEq

/-- A token as built by the byte-level tokenizer; the value of string-like
tokens is the JS string as a list of UTF-16 code units. -/
structure LexToken : Type where
  type : TokenType
  codeUnits : List Nat
  deriving DecidableEq

/-- JS `String.fromCharCode`: the argument is reduced modulo 2^16. -/
def fromCharCode (n : Nat) : Nat := n % 65536

/-- Models `PDFTokenizer.isWhitespace`. -/
def isWhitespace (b : Nat) : Bool :=
  b = 0 || b = 9 || b = 10 || b = 12 || b = 13 || b = 32

/-- Models `PDFTokenizer.isOctalDigit`. -/
def isOctalDigit (b : Nat) : Bool := 48 ≤ b && b ≤ 55

/-- The escape `switch` of `PDFTokenizer.readLiteralString`, applied to the
byte following a backslash: returns the emitted code unit (if any; line
continuations emit nothing) and how many further bytes are consumed (octal
escapes may consume up to two further digits, `\\<CR><LF>` one). -/
def escStep (nb : Nat) (rest2 : List Nat) : Option Nat × Nat :=
  if nb = 110 then (some 10, 0)
  else if nb = 114 then (some 13, 0)
  else if nb = 116 then (some 9, 0)
  else if nb = 98 then (some 8, 0)
  else if nb = 102 then (some 12, 0)
  else if nb = 40 then (some 40, 0)
  else if nb = 41 then (some 41, 0)
  else if nb = 92 then (some 92, 0)
  else if nb = 13 then
    match rest2 with
    | 10 :: _ => (none, 1)
    | _ => (none, 0)
  else if nb = 10 then (none, 0)
  else if isOctalDigit nb then
    match rest2 with
    | d2 :: rest3 =>
      if isOctalDigit d2 then
        match rest3 with
        | d3 :: _ =>
          if isOctalDigit d3 then
            (some (fromCharCode ((nb - 48) * 64 + (d2 - 48) * 8 + (d3 - 48))), 2)
          else (some (fromCharCode ((nb - 48) * 8 + (d2 - 48))), 1)
        | [] => (some (fromCharCode ((nb - 48) * 8 + (d2 - 48))), 1)
      else (some (fromCharCode (nb - 48)), 0)
    | [] => (some (fromCharCode (nb - 48)), 0)
  else (some (fromCharCode nb), 0)

/-- The `while (!this.isEOF() && depth > 0)` loop of
`PDFTokenizer.readLiteralString`: nesting, closing, escapes (via `escStep`),
ordinary bytes.  Returns the accumulated code units and the unconsumed
buffer; reaching the end of the buffer with unbalanced parentheses simply
ends the loop. -/
def litLoop (depth : Nat) (acc : List Nat) (input : List Nat) :
    List Nat × List Nat :=
  if depth = 0 then (acc, input)
  else match input with
  | [] => (acc, [])
  | b :: rest =>
    if b = 40 then litLoop (depth + 1) (acc ++ [40]) rest
    else if b = 41 then
      litLoop (depth - 1) (if depth - 1 > 0 then acc ++ [41] else acc) rest
    else if b = 92 then
      match rest with
      | [] => (acc, [])
      | nb :: rest2 =>
        litLoop depth
          (acc ++ (match (escStep nb rest2).1 with | some u => [u] | none => []))
          (rest2.drop (escStep nb rest2).2)
    else litLoop depth (acc ++ [fromCharCode b]) rest
termination_by input.length
decreasing_by
  all_goals simp_wf
  all_goals omega

/-- Models `PDFTokenizer.readLiteralString`: the buffer starts at the opening
parenthesis (guaranteed by the `nextToken` dispatch), which is skipped; the
loop runs with initial depth 1 and the method always returns a `STRING`
token (it contains no throw). -/
def readLiteralString (bs : List Nat) : LexToken × List Nat :=
  let r := litLoop 1 [] bs.tail
  ({ type := .STRING, codeUnits := r.1 }, r.2)

/-- Models `PDFTokenizer.isHexDigit` as a partial valuation. -/
def hexVal (b : Nat) : Option Nat :=
  if 48 ≤ b ∧ b ≤ 57 then some (b - 48)
  else if 65 ≤ b ∧ b ≤ 70 then some (b - 55)
  else if 97 ≤ b ∧ b ≤ 102 then some (b - 87)
  else none

/-- JS `parseInt(two-char-string, 16)` followed by `String.fromCharCode`:
parses the longest hex prefix; an empty prefix gives NaN, and
`fromCharCode(NaN) = 0`. -/
def hexPairVal (d1 d2 : Nat) : Nat :=
  match hexVal d1, hexVal d2 with
  | some a, some b => fromCharCode (16 * a + b)
  | some a, none => fromCharCode a
  | none, _ => 0

/-- The collection loop of `PDFTokenizer.readHexString`: gather non-whitespace
bytes until `>` or EOF; the closing `>` is skipped when present. -/
def hexLoop (acc : List Nat) : List Nat → List Nat × List Nat
  | [] => (acc, [])
  | b :: rest =>
    if b = 62 then (acc, rest)
    else if isWhitespace b then hexLoop acc rest
    else hexLoop (acc ++ [b]) rest

/-- The pairwise binary conversion of `PDFTokenizer.readHexString` (the input
has even length after padding; a stray last digit would pair with nothing). -/
def hexPairs : List Nat → List Nat
  | d1 :: d2 :: rest => hexPairVal d1 d2 :: hexPairs rest
  | _ => []

/-- Models `PDFTokenizer.readHexString`: skip the opening `<`, collect digits
until `>` or EOF, pad an odd count with a trailing `0`, convert pairwise, and
always return a `HEX_STRING` token (the method contains no throw). -/
def readHexString (bs : List Nat) : LexToken × List Nat :=
  let r := hexLoop [] bs.tail
  let hx := if r.1.length % 2 = 1 then r.1 ++ [48] else r.1
  ({ type := .HEX_STRING, codeUnits := hexPairs hx }, r.2)

/-- C6 counterexample: the claim that an unterminated literal or hex string
raises a LexicalError instead of returning a string token is false: on the
unterminated inputs `(abc` and `<41` the reading methods return a STRING
resp. HEX_STRING token holding everything decoded up to the end of the
buffer (neither method contains a throw path). -/
theorem claim_C6_counterexample :
    readLiteralString [40, 97, 98, 99] = ({ type := .STRING, codeUnits := [97, 98, 99] }, [])
    ∧ readHexString [60, 52, 49] = ({ type := .HEX_STRING, codeUnits := [65] }, []) := by
  constructor
  · simp [readLiteralString, litLoop.eq_def, escStep, fromCharCode, isOctalDigit]
  · simp [readHexString, hexLoop, hexPairs, hexPairVal, hexVal, isWhitespace, fromCharCode]


/-- C7 counterexample: the claim that the octal escape decodes to the value
modulo 256 is false: `(\777)` decodes to code unit 511 (the full octal
value passed through fromCharCode), not 255. -/
theorem claim_C7_counterexample :
    readLiteralString [40, 92, 55, 55, 55, 41] =
      ({ type := .STRING, codeUnits := [511] }, []) ∧ (511 : Nat) ≠ 511 % 256 := by
  constructor
  · simp [readLiteralString, litLoop, escStep, fromCharCode, isOctalDigit]
  · omega

theorem litLoop_zero (acc input : List Nat) : litLoop 0 acc input = (acc, input) := by
  rw [litLoop.eq_def]
  simp

theorem litLoop_close1 (acc : List Nat) (rest : List Nat) :
    litLoop 1 acc (41 :: rest) = (acc, rest) := by
  rw [litLoop.eq_def]
  simp [litLoop_zero]

theorem litLoop_plain (depth : Nat) (hd : depth ≠ 0) (acc : List Nat)
    (input : List Nat) (h : ∀ b ∈ input, b ≠ 40 ∧ b ≠ 41 ∧ b ≠ 92) :
    litLoop depth acc input = (acc ++ input.map fromCharCode, []) := by
  induction input generalizing acc with
  | nil =>
    rw [litLoop.eq_def]
    simp [hd]
  | cons b rest ih =>
    obtain ⟨h40, h41, h92⟩ := h b (by simp)
    have hrest : ∀ x ∈ rest, x ≠ 40 ∧ x ≠ 41 ∧ x ≠ 92 := fun x hx => h x (by simp [hx])
    rw [litLoop.eq_def]
    simp [hd, h40, h41, h92, ih (acc ++ [fromCharCode b]) hrest]

theorem hexLoop_all (acc : List Nat) (input : List Nat)
    (h : ∀ b ∈ input, b ≠ 62 ∧ isWhitespace b = false) :
    hexLoop acc input = (acc ++ input, []) := by
  induction input generalizing acc with
  | nil => simp [hexLoop]
  | cons b rest ih =>
    obtain ⟨h62, hws⟩ := h b (by simp)
    have hrest : ∀ x ∈ rest, x ≠ 62 ∧ isWhitespace x = false := fun x hx => h x (by simp [hx])
    simp [hexLoop, h62, hws, ih (acc ++ [b]) hrest]

theorem escStep_octal3 (d1 d2 d3 : Nat) (rest : List Nat)
    (h1 : isOctalDigit d1 = true) (h2 : isOctalDigit d2 = true)
    (h3 : isOctalDigit d3 = true) :
    escStep d1 (d2 :: d3 :: rest) =
      (some (fromCharCode ((d1 - 48) * 64 + (d2 - 48) * 8 + (d3 - 48))), 2) := by
  have b1 : 48 ≤ d1 ∧ d1 ≤ 55 := by simpa [isOctalDigit] using h1
  unfold escStep
  repeat rw [if_neg (by omega)]
  rw [if_pos h1]
  simp [h2, h3]

theorem escStep_octal2 (d1 d2 b : Nat) (rest : List Nat)
    (h1 : isOctalDigit d1 = true) (h2 : isOctalDigit d2 = true)
    (hb : isOctalDigit b = false) :
    escStep d1 (d2 :: b :: rest) =
      (some (fromCharCode ((d1 - 48) * 8 + (d2 - 48))), 1) := by
  have b1 : 48 ≤ d1 ∧ d1 ≤ 55 := by simpa [isOctalDigit] using h1
  unfold escStep
  repeat rw [if_neg (by omega)]
  rw [if_pos h1]
  simp [h2, hb]

theorem escStep_octal1 (d1 b : Nat) (rest : List Nat)
    (h1 : isOctalDigit d1 = true) (hb : isOctalDigit b = false) :
    escStep d1 (b :: rest) = (some (fromCharCode (d1 - 48)), 0) := by
  have b1 : 48 ≤ d1 ∧ d1 ≤ 55 := by simpa [isOctalDigit] using h1
  unfold escStep
  repeat rw [if_neg (by omega)]
  rw [if_pos h1]
  simp [hb]

theorem readLiteralString_octal3 (d1 d2 d3 : Nat) (rest : List Nat)
    (h1 : isOctalDigit d1 = true) (h2 : isOctalDigit d2 = true)
    (h3 : isOctalDigit d3 = true) :
    readLiteralString (40 :: 92 :: d1 :: d2 :: d3 :: 41 :: rest) =
      ({ type := .STRING,
         codeUnits := [(d1 - 48) * 64 + (d2 - 48) * 8 + (d3 - 48)] }, rest) := by
  have b1 : 48 ≤ d1 ∧ d1 ≤ 55 := by simpa [isOctalDigit] using h1
  have b2 : 48 ≤ d2 ∧ d2 ≤ 55 := by simpa [isOctalDigit] using h2
  have b3 : 48 ≤ d3 ∧ d3 ≤ 55 := by simpa [isOctalDigit] using h3
  have e3 := escStep_octal3 d1 d2 d3 (41 :: rest) h1 h2 h3
  have hfc : fromCharCode ((d1 - 48) * 64 + (d2 - 48) * 8 + (d3 - 48)) =
      (d1 - 48) * 64 + (d2 - 48) * 8 + (d3 - 48) := Nat.mod_eq_of_lt (by omega)
  simp only [readLiteralString, List.tail_cons]
  rw [litLoop.eq_def]
  simp [e3, hfc, litLoop_close1]

theorem readLiteralString_octal2 (d1 d2 : Nat) (rest : List Nat)
    (h1 : isOctalDigit d1 = true) (h2 : isOctalDigit d2 = true) :
    readLiteralString (40 :: 92 :: d1 :: d2 :: 41 :: rest) =
      ({ type := .STRING, codeUnits := [(d1 - 48) * 8 + (d2 - 48)] }, rest) := by
  have b1 : 48 ≤ d1 ∧ d1 ≤ 55 := by simpa [isOctalDigit] using h1
  have b2 : 48 ≤ d2 ∧ d2 ≤ 55 := by simpa [isOctalDigit] using h2
  have e2 := escStep_octal2 d1 d2 41 rest h1 h2 (by simp [isOctalDigit])
  have hfc : fromCharCode ((d1 - 48) * 8 + (d2 - 48)) = (d1 - 48) * 8 + (d2 - 48) :=
    Nat.mod_eq_of_lt (by omega)
  simp only [readLiteralString, List.tail_cons]
  rw [litLoop.eq_def]
  simp [e2, hfc, litLoop_close1]

theorem readLiteralString_octal1 (d1 : Nat) (rest : List Nat)
    (h1 : isOctalDigit d1 = true) :
    readLiteralString (40 :: 92 :: d1 :: 41 :: rest) =
      ({ type := .STRING, codeUnits := [d1 - 48] }, rest) := by
  have b1 : 48 ≤ d1 ∧ d1 ≤ 55 := by simpa [isOctalDigit] using h1
  have e1 := escStep_octal1 d1 41 rest h1 (by simp [isOctalDigit])
  have hfc : fromCharCode (d1 - 48) = d1 - 48 := Nat.mod_eq_of_lt (by omega)
  simp only [readLiteralString, List.tail_cons]
  rw [litLoop.eq_def]
  simp [e1, hfc, litLoop_close1]

theorem readLiteralString_unterminated (body : List Nat)
    (h : ∀ b ∈ body, b ≠ 40 ∧ b ≠ 41 ∧ b ≠ 92) :
    readLiteralString (40 :: body) =
      ({ type := .STRING, codeUnits := body.map fromCharCode }, []) := by
  simp only [readLiteralString, List.tail_cons]
  rw [litLoop_plain 1 (by omega) [] body h]
  simp

theorem readHexString_unterminated (body : List Nat)
    (h : ∀ b ∈ body, b ≠ 62 ∧ isWhitespace b = false)
    (heven : body.length % 2 = 0) :
    readHexString (60 :: body) =
      ({ type := .HEX_STRING, codeUnits := hexPairs body }, []) := by
  simp only [readHexString, List.tail_cons]
  rw [hexLoop_all [] body h]
  simp [heven]

/-- A token as consumed by `FileStructureParser`: the token type plus the JS
value it carries (`.num` for INTEGER/REAL, `.str` for NAME/KEYWORD/HEADER and
string tokens, `.bool`, `.null`; a STREAM token carries its payload as
`.stream [] data`). -/
structure PTok : Type where
  type : TokenType
  value : PDFObject

/-- Cross-reference entry (`XRefEntry`). -/
structure XRefEntry : Type where
  offset : Int
  generationNumber : Int
  inUse : Bool

/-- The trailer record built by `parseTrailer` (`TrailerDictionary`); fields
that JS would hold as `undefined` are `none`. -/
structure TrailerRec : Type where
  size : Option PDFObject
  root : Option PDFObject
  info : Option PDFObject
  idArr : Option PDFObject
  encrypt : Option PDFObject
  prev : Option PDFObject
  parsedDictionary : List (String × PDFObject)

/-- Mutable state of `FileStructureParser`: token list, cursor, the `objects`
list, the indirect-object map (key to stored value field), the xref table,
the trailer and the version string. -/
structure PState : Type where
  tokens : List PTok
  idx : Nat
  objects : List PDFObject
  imap : List ((Int × Int) × PDFObject)
  xref : List (Int × XRefEntry)
  trailer : Option TrailerRec
  version : String

/-- Parser computation result: value, thrown `Error(msg)`, or fuel
exhaustion of the model's fuel-indexed recursion. -/
inductive PRes (α : Type) : Type where
  | ok (a : α) : PRes α
  | err (msg : String) : PRes α
  | out : PRes α

/-- JS `parseInt` / raw numeric token value as used by the parser; every
token value it is applied to is a number in the modelled fragment. -/
def toInt (v : PDFObject) : Int :=
  match v with
  | .num n => n
  | _ => 0

/-- The string payload of a token value. -/
def strOf (v : PDFObject) : String :=
  match v with
  | .str s => s
  | _ => ""

/-- JS strict equality of a token value against a string literal. -/
def isStrVal (v : PDFObject) (s : String) : Bool :=
  match v with
  | .str s' => s' = s
  | _ => false

/-- JS truthiness on PDF object values (`undefined` is handled as `none` at
the option level by callers). -/
def jsFalsy (v : PDFObject) : Bool :=
  match v with
  | .null => true
  | .bool b => !b
  | .num n => n = 0
  | .str s => s = ""
  | _ => false

/-- String-keyed first-match lookup (JS `Map.get`). -/
def dlookup : List (String × PDFObject) → String → Option PDFObject
  | [], _ => none
  | (k', v) :: rest, k => if k' = k then some v else dlookup rest k

/-- JS `Map.set`: replace in place when the key exists, append otherwise. -/
def dset : List (String × PDFObject) → String → PDFObject → List (String × PDFObject)
  | [], k, v => [(k, v)]
  | (k', v') :: rest, k, v =>
      if k' = k then (k', v) :: rest else (k', v') :: dset rest k v

/-- The `Map.set` operation for the indirect-object map. -/
def ilset : List ((Int × Int) × PDFObject) → (Int × Int) → PDFObject →
    List ((Int × Int) × PDFObject)
  | [], k, v => [(k, v)]
  | (k', v') :: rest, k, v =>
      if k' = k then (k', v) :: rest else (k', v') :: ilset rest k v

/-- Property set on the xref table object. -/
def xset : List (Int × XRefEntry) → Int → XRefEntry → List (Int × XRefEntry)
  | [], k, v => [(k, v)]
  | (k', v') :: rest, k, v =>
      if k' = k then (k', v) :: rest else (k', v') :: xset rest k v

/-- Advance the token cursor by one. -/
def padv (st : PState) : PState := { st with idx := st.idx + 1 }

/-- Longest digit prefix of a character list. -/
def digitSpan : List Char → List Char × List Char
  | [] => ([], [])
  | c :: rest =>
    if c.isDigit then
      let r := digitSpan rest
      (c :: r.1, r.2)
    else ([], c :: rest)

/-- Try to match the regex `%PDF-(\d+\.\d+)` at the head of the list,
returning the captured group. -/
def matchVerAt (cs : List Char) : Option (List Char) :=
  match cs with
  | '%' :: 'P' :: 'D' :: 'F' :: '-' :: rest =>
    let d1 := digitSpan rest
    if d1.1.isEmpty then none
    else match d1.2 with
      | '.' :: rest2 =>
        let d2 := digitSpan rest2
        if d2.1.isEmpty then none else some (d1.1 ++ '.' :: d2.1)
      | _ => none
  | _ => none

/-- First match of `%PDF-(\d+\.\d+)` anywhere in the list. -/
def findVer : List Char → Option (List Char)
  | [] => none
  | c :: rest =>
    match matchVerAt (c :: rest) with
    | some v => some v
    | none => findVer rest

/-- The version extraction of `FileStructureParser.parseHeader`: the regex
capture when the header matches `%PDF-M.N`, the whole header string
otherwise. -/
def extractVersion (s : String) : String :=
  match findVer s.data with
  | some v => String.mk v
  | none => s

mutual

/-- Models `FileStructureParser.parseNextObject`: primitives pass the token
value through, names gain a leading slash, brackets dispatch to array or
dictionary parsing, and an INTEGER begins an indirect object or reference
when the two-token lookahead matches; any other token type throws. -/
def parseNextObject (fuel : Nat) (st : PState) : PRes (PDFObject × PState) :=
  match fuel with
  | 0 => .out
  | fuel + 1 =>
    match st.tokens.get? st.idx with
    | none => .ok (.null, st)
    | some tok =>
      match tok.type with
      | .BOOLEAN | .REAL | .STRING | .HEX_STRING | .NULL => .ok (tok.value, padv st)
      | .NAME => .ok (.str ("/" ++ strOf tok.value), padv st)
      | .ARRAY_START => parseArray fuel st
      | .DICT_START => parseDictionary fuel st
      | .INTEGER =>
        if st.idx + 2 < st.tokens.length
            ∧ (st.tokens.get? (st.idx + 1)).any (fun t => t.type = .INTEGER)
            ∧ (st.tokens.get? (st.idx + 2)).any (fun t => t.type = .OBJ_START) then
          parseIndirectObject fuel st
        else if st.idx + 2 < st.tokens.length
            ∧ (st.tokens.get? (st.idx + 1)).any (fun t => t.type = .INTEGER)
            ∧ (st.tokens.get? (st.idx + 2)).any (fun t => t.type = .INDIRECT_REFERENCE) then
          parseIndirectReference fuel st
        else .ok (.num (toInt tok.value), padv st)
      | _ => .err "Unexpected token in object value"

/-- Models `FileStructureParser.parseArray`: skip `[`, parse items until `]`
or end of tokens, then skip the `]` when present. -/
def parseArray (fuel : Nat) (st : PState) : PRes (PDFObject × PState) :=
  match fuel with
  | 0 => .out
  | fuel + 1 =>
    match parseArrayLoop fuel (padv st) [] with
    | .ok (items, st2) =>
      let st3 := if st2.idx < st2.tokens.length then padv st2 else st2
      .ok (.array items, st3)
    | .err e => .err e
    | .out => .out

/-- The item loop of `parseArray` (`null` items are pushed like any other). -/
def parseArrayLoop (fuel : Nat) (st : PState) (acc : List PDFObject) :
    PRes (List PDFObject × PState) :=
  match fuel with
  | 0 => .out
  | fuel + 1 =>
    if st.idx < st.tokens.length
        ∧ (st.tokens.get? st.idx).any (fun t => t.type ≠ .ARRAY_END) then
      match parseNextObject fuel st with
      | .ok (item, st2) => parseArrayLoop fuel st2 (acc ++ [item])
      | .err e => .err e
      | .out => .out
    else .ok (acc, st)

/-- Models `FileStructureParser.parseDictionary`: skip `<<`, read name/value
pairs until `>>` (non-name keys are skipped), skip the `>>` when present,
and hand over to `parseStream` when a STREAM token follows. -/
def parseDictionary (fuel : Nat) (st : PState) : PRes (PDFObject × PState) :=
  match fuel with
  | 0 => .out
  | fuel + 1 =>
    match parseDictLoop fuel (padv st) [] with
    | .ok (d, st2) =>
      let st3 := if st2.idx < st2.tokens.length then padv st2 else st2
      if st3.idx < st3.tokens.length
          ∧ (st3.tokens.get? st3.idx).any (fun t => t.type = .STREAM) then
        parseStream fuel d st3
      else .ok (.dict d, st3)
    | .err e => .err e
    | .out => .out

/-- The key/value loop of `parseDictionary`. -/
def parseDictLoop (fuel : Nat) (st : PState) (d : List (String × PDFObject)) :
    PRes (List (String × PDFObject) × PState) :=
  match fuel with
  | 0 => .out
  | fuel + 1 =>
    if st.idx < st.tokens.length
        ∧ (st.tokens.get? st.idx).any (fun t => t.type ≠ .DICT_END) then
      match st.tokens.get? st.idx with
      | none => .ok (d, st)
      | some tok =>
        if tok.type ≠ .NAME then parseDictLoop fuel (padv st) d
        else
          let key := strOf tok.value
          let st2 := padv st
          if st2.idx < st2.tokens.length then
            match parseNextObject fuel st2 with
            | .ok (v, st3) => parseDictLoop fuel st3 (dset d key v)
            | .err e => .err e
            | .out => .out
          else parseDictLoop fuel st2 d
    else .ok (d, st)

/-- Models `FileStructureParser.parseStream`: consume the STREAM token and
pair its payload with the preceding dictionary. -/
def parseStream (fuel : Nat) (d : List (String × PDFObject)) (st : PState) :
    PRes (PDFObject × PState) :=
  match fuel with
  | 0 => .out
  | fuel + 1 =>
    let data := match st.tokens.get? st.idx with
      | some tok =>
        match tok.value with
        | .stream _ payload => payload
        | _ => []
      | none => []
    .ok (.stream d data, padv st)

/-- Models `FileStructureParser.parseIndirectObject`: object number,
generation number, `obj`, the value, an optional `endobj`; the object is
recorded in the indirect-object map (last definition wins). -/
def parseIndirectObject (fuel : Nat) (st : PState) : PRes (PDFObject × PState) :=
  match fuel with
  | 0 => .out
  | fuel + 1 =>
    let o := toInt (((st.tokens.get? st.idx).map PTok.value).getD .null)
    let st1 := padv st
    let g := toInt (((st1.tokens.get? st1.idx).map PTok.value).getD .null)
    let st2 := padv (padv st1)
    match parseNextObject fuel st2 with
    | .ok (v, st3) =>
      let st4 := if st3.idx < st3.tokens.length
          ∧ (st3.tokens.get? st3.idx).any (fun t => t.type = .OBJ_END) then padv st3 else st3
      .ok (.indirect o g v, { st4 with imap := ilset st4.imap (o, g) v })
    | .err e => .err e
    | .out => .out

/-- Models `FileStructureParser.parseIndirectReference`. -/
def parseIndirectReference (fuel : Nat) (st : PState) : PRes (PDFObject × PState) :=
  match fuel with
  | 0 => .out
  | fuel + 1 =>
    let o := toInt (((st.tokens.get? st.idx).map PTok.value).getD .null)
    let st1 := padv st
    let g := toInt (((st1.tokens.get? st1.idx).map PTok.value).getD .null)
    let st2 := padv (padv st1)
    .ok (.ref o g, st2)

end

/-- Models `FileStructureParser.parseHeader`. -/
def parseHeaderF (st : PState) : PRes PState :=
  match st.tokens.get? st.idx with
  | some tok =>
    if tok.type = .HEADER then
      .ok { padv st with version := extractVersion (strOf tok.value) }
    else .err "Invalid PDF: Header not found"
  | none => .err "Invalid PDF: Header not found"

/-- Models the loop of `FileStructureParser.parseBody`: parse objects until
the `xref` keyword or the end of the tokens; `null` results are not pushed
onto `objects`. -/
def parseBodyLoop (fuel : Nat) (st : PState) : PRes PState :=
  match fuel with
  | 0 => .out
  | fuel + 1 =>
    if st.idx < st.tokens.length then
      if (st.tokens.get? st.idx).any
          (fun t => t.type = .KEYWORD && isStrVal t.value "xref") then .ok st
      else
        match parseNextObject fuel st with
        | .ok (obj, st2) =>
          match obj with
          | .null => parseBodyLoop fuel st2
          | _ => parseBodyLoop fuel { st2 with objects := st2.objects ++ [obj] }
        | .err e => .err e
        | .out => .out
    else .ok st

/-- The per-entry inner `for` loop of `parseXRefTable`. -/
def parseXRefEntries (fuel : Nat) (st : PState) (startId : Int) (count : Nat)
    (i : Nat) : PRes PState :=
  match fuel with
  | 0 => .out
  | fuel + 1 =>
    if i < count then
      match st.tokens.get? st.idx with
      | none => .err "Expected offset in xref entry"
      | some t1 =>
        if t1.type ≠ .INTEGER then .err "Expected offset in xref entry"
        else
          let st1 := padv st
          match st1.tokens.get? st1.idx with
          | none => .err "Expected generation number in xref entry"
          | some t2 =>
            if t2.type ≠ .INTEGER then .err "Expected generation number in xref entry"
            else
              let st2 := padv st1
              match st2.tokens.get? st2.idx with
              | none => .err "Expected in-use flag in xref entry"
              | some t3 =>
                if t3.type ≠ .KEYWORD then .err "Expected in-use flag in xref entry"
                else
                  let st3 := padv st2
                  let entry : XRefEntry :=
                    { offset := toInt t1.value, generationNumber := toInt t2.value,
                      inUse := isStrVal t3.value "n" }
                  parseXRefEntries fuel
                    { st3 with xref := xset st3.xref (startId + i) entry }
                    startId count (i + 1)
    else .ok st

/-- The subsection loop of `FileStructureParser.parseXRefTable`. -/
def parseXRefLoop (fuel : Nat) (st : PState) : PRes PState :=
  match fuel with
  | 0 => .out
  | fuel + 1 =>
    match st.tokens.get? st.idx with
    | none => .ok st
    | some tok =>
      if tok.type ≠ .INTEGER then .ok st
      else
        let startId := toInt tok.value
        let st1 := padv st
        match st1.tokens.get? st1.idx with
        | none => .err "Expected count in xref subsection"
        | some t2 =>
          if t2.type ≠ .INTEGER then .err "Expected count in xref subsection"
          else
            let st2 := padv st1
            match parseXRefEntries fuel st2 startId (toInt t2.value).toNat 0 with
            | .ok st3 => parseXRefLoop fuel st3
            | .err e => .err e
            | .out => .out

/-- Models `FileStructureParser.parseTrailer`: the `trailer` keyword, the
dictionary, then `startxref` and its integer.  The trailer record is built
from whatever the dictionary contains; no presence check is performed on
`Size` or `Root`. -/
def parseTrailer (fuel : Nat) (st : PState) : PRes PState :=
  match st.tokens.get? st.idx with
  | none => .err "Expected trailer keyword"
  | some t1 =>
    if ¬(t1.type = .KEYWORD ∧ isStrVal t1.value "trailer") then
      .err "Expected trailer keyword"
    else
      let st1 := padv st
      match st1.tokens.get? st1.idx with
      | none => .err "Expected dictionary start after trailer keyword"
      | some t2 =>
        if t2.type ≠ .DICT_START then .err "Expected dictionary start after trailer keyword"
        else
          match parseDictionary fuel st1 with
          | .ok (parsed, st2) =>
            match parsed with
            | .dict d =>
              let rec0 : TrailerRec :=
                { size := dlookup d "Size"
                  root := dlookup d "Root"
                  info := match dlookup d "Info" with
                    | some v => if jsFalsy v then none else some v
                    | none => none
                  idArr := dlookup d "ID"
                  encrypt := dlookup d "Encrypt"
                  prev := dlookup d "Prev"
                  parsedDictionary := d }
              let st3 := { st2 with trailer := some rec0 }
              match st3.tokens.get? st3.idx with
              | none => .err "Expected startxref keyword"
              | some t4 =>
                if ¬(t4.type = .KEYWORD ∧ isStrVal t4.value "startxref") then
                  .err "Expected startxref keyword"
                else
                  let st4 := padv st3
                  match st4.tokens.get? st4.idx with
                  | none => .err "Expected integer after startxref"
                  | some t5 =>
                    if t5.type ≠ .INTEGER then .err "Expected integer after startxref"
                    else .ok (padv st4)
            | _ => .err "TypeError: parsed trailer dictionary is not a Map"
          | .err e => .err e
          | .out => .out

/-- Models `FileStructureParser.parseXRefAndTrailer`. -/
def parseXRefAndTrailer (fuel : Nat) (st : PState) : PRes PState :=
  match st.tokens.get? st.idx with
  | none => .err "Expected xref keyword"
  | some tok =>
    if ¬(tok.type = .KEYWORD ∧ isStrVal tok.value "xref") then .err "Expected xref keyword"
    else
      match parseXRefLoop fuel (padv st) with
      | .ok st2 => parseTrailer fuel st2
      | .err e => .err e
      | .out => .out

/-- The `do … while` loop of `FileStructureParser.parse`. -/
def parseLoop (fuel : Nat) (st : PState) : PRes PState :=
  match fuel with
  | 0 => .out
  | fuel + 1 =>
    match parseBodyLoop fuel st with
    | .ok st1 =>
      match parseXRefAndTrailer fuel st1 with
      | .ok st2 =>
        if st2.idx < st2.tokens.length
            ∧ (st2.tokens.get? st2.idx).any (fun t => t.type ≠ .EOF) then
          parseLoop fuel st2
        else .ok st2
      | .err e => .err e
      | .out => .out
    | .err e => .err e
    | .out => .out

/-- Models `FileStructureParser.parse`: header, body/xref/trailer loop, then
the EOF marker. -/
def parsePDF (fuel : Nat) (tokens : List PTok) : PRes PState :=
  let st0 : PState :=
    { tokens := tokens, idx := 0, objects := [], imap := [], xref := [],
      trailer := none, version := "" }
  match parseHeaderF st0 with
  | .ok st1 =>
    match parseLoop fuel st1 with
    | .ok st2 =>
      match st2.tokens.get? st2.idx with
      | none => .err "Expected EOF marker"
      | some tok =>
        if tok.type ≠ .EOF then .err "Expected EOF marker"
        else .ok (padv st2)
    | .err e => .err e
    | .out => .out
  | .err e => .err e
  | .out => .out

/-- A token stream whose trailer dictionary has neither `Size` nor `Root`:
`%PDF-1.7  xref  trailer << >> startxref 0  EOF`. -/
def toksNoSizeRoot : List PTok :=
  [⟨.HEADER, .str "%PDF-1.7"⟩, ⟨.KEYWORD, .str "xref"⟩, ⟨.KEYWORD, .str "trailer"⟩,
   ⟨.DICT_START, .str "<<"⟩, ⟨.DICT_END, .str ">>"⟩, ⟨.KEYWORD, .str "startxref"⟩,
   ⟨.INTEGER, .num 0⟩, ⟨.EOF, .null⟩]

/-- The trailer of a completed parse, `none` when the parse failed. -/
def trailerOf (r : PRes PState) : Option TrailerRec :=
  match r with
  | .ok st => st.trailer
  | _ => none

/-- C5: evaluation of the parser at the failing input: a token stream whose
trailer dictionary has neither `Size` nor `Root` parses to completion and the
trailer records undefined for both; no structural error is raised. -/
theorem claim_C5 :
    trailerOf (parsePDF 20 toksNoSizeRoot) =
      some { size := none, root := none, info := none, idArr := none,
             encrypt := none, prev := none, parsedDictionary := [] } := by
  rfl

/-- JS property/index access on an arbitrary value: array indexing yields the
element or `undefined`; indexing anything else yields `undefined`. -/
def jsIndex (v : PDFObject) (i : Nat) : Option PDFObject :=
  match v with
  | .array items => items.get? i
  | _ => none

/-- Models `PDFPage.resolveBox`: read the box entry from the leaf dictionary
only (the `resolver` parameter of the source is never used, and no parent
walk happens); a missing or falsy entry yields `undefined`, otherwise the
first four indexed elements are copied into a fresh array.  The
`assert(boxRef.length===4)` of the source is `console.assert`, which never
throws. -/
def resolveBox (dict : List (String × PDFObject)) (boxName : String) :
    Option (List (Option PDFObject)) :=
  match dlookup dict boxName with
  | none => none
  | some v =>
    if jsFalsy v then none
    else some [jsIndex v 0, jsIndex v 1, jsIndex v 2, jsIndex v 3]

/-- The `(objectNumber, generationNumber)` key a JS value exposes when used
as a reference (`.objectNumber`/`.generationNumber` property reads). -/
def refKeyOf (v : PDFObject) : Option (Int × Int) :=
  match v with
  | .ref o g => some (o, g)
  | .indirect o g _ => some (o, g)
  | .ptr k => some k
  | _ => none

/-- Calling `resolver.resolveIndirectReference(x, deep)` on an arbitrary
(possibly `undefined`) JS value: a value without the two number properties produces the
`undefined undefined` key, which is absent from the table and throws the
unknown-reference error. -/
def resolveJS (fuel : Nat) (o : Option PDFObject) (deep : Bool) (s : RState) :
    RRes ((Int × Int) × RState) :=
  match o with
  | some v =>
    match refKeyOf v with
    | some k => resolveIndirectReference fuel k deep true s
    | none => .err (.unknownRef none)
  | none => .err (.unknownRef none)

/-- The resources record built by `PDFPage.resolveResources` (each slot is
`resourcesDict.get(...) ?? null`). -/
structure PDFResources : Type where
  font : PDFObject
  xObject : PDFObject
  extGState : PDFObject
  colorSpace : PDFObject
  pattern : PDFObject
  shading : PDFObject
  procSet : PDFObject
  properties : PDFObject

/-- Models `PDFPage.resolveResources`: take the leaf's `Resources`; when it
is falsy and a parent exists, shallow-resolve the parent and read its
`Resources`; deep-resolve the result (throwing the unknown-reference error
when it is still `undefined` or not a reference) and project the eight
slots.  `.get` on a non-dictionary value is a JS `TypeError`. -/
def resolveResources (fuel : Nat) (dict : List (String × PDFObject))
    (parent : Option PDFObject) (s : RState) : RRes (PDFResources × RState) :=
  let r0 := dlookup dict "Resources"
  let step : RRes (Option PDFObject × RState) :=
    if ((match r0 with | none => true | some v => jsFalsy v)
        && (match parent with | none => false | some pv => !jsFalsy pv)) then
      match resolveJS fuel parent false s with
      | .ok (k, s1) =>
        match (tlookup s1.table k).getD .null with
        | .dict pd => .ok (dlookup pd "Resources", s1)
        | pv => if jsFalsy pv then .ok (r0, s1) else .err .typeError
      | .err e => .err e
      | .out => .out
    else .ok (r0, s)
  match step with
  | .ok (r1, s1) =>
    match resolveJS fuel r1 true s1 with
    | .ok (k2, s2) =>
      match (tlookup s2.table k2).getD .null with
      | .dict rd =>
        .ok ({ font := (dlookup rd "Font").getD .null,
               xObject := (dlookup rd "XObject").getD .null,
               extGState := (dlookup rd "ExtGState").getD .null,
               colorSpace := (dlookup rd "ColorSpace").getD .null,
               pattern := (dlookup rd "Pattern").getD .null,
               shading := (dlookup rd "Shading").getD .null,
               procSet := (dlookup rd "ProcSet").getD .null,
               properties := (dlookup rd "Properties").getD .null }, s2)
      | _ => .err .typeError
    | .err e => .err e
    | .out => .out
  | .err e => .err e
  | .out => .out

/-- The page record built by the `PDFPage` constructor. -/
structure PDFPageRec : Type where
  mediaBox : Option (List (Option PDFObject))
  cropBox : Option (List (Option PDFObject))
  bleedBox : Option (List (Option PDFObject))
  trimBox : Option (List (Option PDFObject))
  artBox : Option (List (Option PDFObject))
  parent : Option PDFObject
  resources : PDFResources
  contents : Option PDFObject
  annots : Option PDFObject
  rotate : PDFObject
  userUnit : PDFObject

/-- Models the `PDFPage` constructor: the five boxes via `resolveBox` (media
box from the leaf only, `undefined` when absent — the `!` assertion masks
it), `cropBox || mediaBox`, `Parent`, resources via `resolveResources`,
`Contents`/`Annots` verbatim, `Rotate || 0` and `UserUnit || 1.0` with no
normalization whatsoever. -/
def mkPDFPage (fuel : Nat) (dict : List (String × PDFObject)) (s : RState) :
    RRes (PDFPageRec × RState) :=
  let mediaBox := resolveBox dict "MediaBox"
  let cropBox := match resolveBox dict "CropBox" with
    | some b => some b
    | none => mediaBox
  let bleedBox := resolveBox dict "BleedBox"
  let trimBox := resolveBox dict "TrimBox"
  let artBox := resolveBox dict "ArtBox"
  let parent := dlookup dict "Parent"
  match resolveResources fuel dict parent s with
  | .ok (res, s1) =>
    .ok ({ mediaBox := mediaBox, cropBox := cropBox, bleedBox := bleedBox,
           trimBox := trimBox, artBox := artBox, parent := parent,
           resources := res,
           contents := dlookup dict "Contents",
           annots := dlookup dict "Annots",
           rotate := (match dlookup dict "Rotate" with
             | some v => if jsFalsy v then .num 0 else v
             | none => .num 0),
           userUnit := (match dlookup dict "UserUnit" with
             | some v => if jsFalsy v then .num 1 else v
             | none => .num 1) }, s1)
  | .err e => .err e
  | .out => .out

/-- A page-tree parent that carries the `MediaBox` the leaf lacks. -/
def tableC4 : List ((Int × Int) × PDFObject) :=
  [((2, 0), .dict [("Type", .str "/Pages"),
      ("MediaBox", .array [.num 0, .num 0, .num 612, .num 792])]),
   ((3, 0), .dict [])]

/-- Page leaf dictionary without `MediaBox`, with a parent that has one. -/
def pageDictC4 : List (String × PDFObject) :=
  [("Parent", .ref 2 0), ("Resources", .ref 3 0), ("Contents", .ref 4 0)]

def stateC4 : RState := { table := tableC4, cache := [], stack := [] }

/-- The media box of a successfully constructed page. -/
def mediaBoxOf (r : RRes (PDFPageRec × RState)) :
    Option (Option (List (Option PDFObject))) :=
  match r with
  | .ok (p, _) => some p.mediaBox
  | _ => none

/-- C4: evaluation of page construction at the failing input: the leaf lacks
`MediaBox` while its parent carries one; the constructor neither walks the
parent chain nor fails — it completes and stores an undefined media box. -/
theorem claim_C4 : mediaBoxOf (mkPDFPage 5 pageDictC4 stateC4) = some none := by
  simp [mkPDFPage, mediaBoxOf, resolveResources, resolveJS, resolveBox, refKeyOf,
    resolveIndirectReference, deepResolve, deepResolveEntries, deepResolveList, stateC4,
    tableC4, pageDictC4, tlookup, tupdate, dlookup, jsFalsy, List.erase]

/-- Page leaf with `Rotate 100` (not a multiple of 90). -/
def pageDictC8 : List (String × PDFObject) :=
  [("MediaBox", .array [.num 0, .num 0, .num 612, .num 792]),
   ("Resources", .ref 3 0), ("Rotate", .num 100)]

/-- The rotate attribute of a successfully constructed page. -/
def rotateOf (r : RRes (PDFPageRec × RState)) : Option PDFObject :=
  match r with
  | .ok (p, _) => some p.rotate
  | _ => none

/-- C8 counterexample: the claim that the stored rotate is always one of
{0, 90, 180, 270} (out-of-set values being normalized) is false: with
`Rotate 100` the constructed page stores 100 verbatim. -/
theorem claim_C8_counterexample :
    rotateOf (mkPDFPage 5 pageDictC8 stateC4) = some (.num 100)
    ∧ (100 : Int) ≠ 0 ∧ (100 : Int) ≠ 90 ∧ (100 : Int) ≠ 180 ∧ (100 : Int) ≠ 270 := by
  refine ⟨?_, by omega, by omega, by omega, by omega⟩
  simp [mkPDFPage, rotateOf, resolveResources, resolveJS, resolveBox, refKeyOf,
    resolveIndirectReference, deepResolve, deepResolveEntries, deepResolveList, stateC4,
    tableC4, pageDictC8, tlookup, tupdate, dlookup, jsFalsy, jsIndex, List.erase]

/-- C8 (amended): the rotate attribute is the dictionary effective `Rotate`
value taken verbatim — whenever page construction succeeds and `Rotate` is a
nonzero number r, the stored rotate equals r; no normalization modulo 360 or
rounding to a multiple of 90 is performed (absent or zero values give 0 via
`|| 0`). -/
theorem claim_C8 (fuel : Nat) (dict : List (String × PDFObject)) (s : RState)
    (p : PDFPageRec) (s' : RState) (r : Int)
    (hok : mkPDFPage fuel dict s = .ok (p, s'))
    (hr : dlookup dict "Rotate" = some (.num r)) (hnz : r ≠ 0) :
    p.rotate = .num r := by
  cases hres : resolveResources fuel dict (dlookup dict "Parent") s with
  | ok q =>
    obtain ⟨res, s1⟩ := q
    simp only [mkPDFPage, hres, RRes.ok.injEq, Prod.mk.injEq] at hok
    obtain ⟨hp, hs⟩ := hok
    rw [← hp]
    simp [hr, jsFalsy, hnz]
  | err e => simp only [mkPDFPage, hres] at hok; simp at hok
  | out => simp only [mkPDFPage, hres] at hok; simp at hok

/-- Heap of JS arrays for the box rectangles: addresses are list indices,
allocation appends at the end.  JS array identity maps to the address. -/
abbrev BoxStore := List (List Int)

/-- The box addresses a constructed `PDFPage` holds (`this.mediaBox` etc.);
the optional boxes may be `undefined`. -/
structure PageBoxes : Type where
  mediaBox : Nat
  cropBox : Nat
  bleedBox : Option Nat
  trimBox : Option Nat
  artBox : Option Nat

/-- Read the array at an address. -/
def readArr (st : BoxStore) (a : Nat) : List Int := (st.get? a).getD []

/-- In-place element-wise mutation of the array at an address (what a caller
does to a returned rectangle). -/
def writeArr (st : BoxStore) (a : Nat) (xs : List Int) : BoxStore := st.set a xs

/-- Allocate a fresh array (`[...xs]` builds a new array object). -/
def allocArr (st : BoxStore) (xs : List Int) : Nat × BoxStore := (st.length, st ++ [xs])

/-- Models `PDFPage.getMediaBox`: `return [...this.mediaBox]` — a fresh copy
of the stored rectangle on every call. -/
def getMediaBox (p : PageBoxes) (st : BoxStore) : Nat × BoxStore :=
  allocArr st (readArr st p.mediaBox)

/-- Models `PDFPage.getCropBox`. -/
def getCropBox (p : PageBoxes) (st : BoxStore) : Nat × BoxStore :=
  allocArr st (readArr st p.cropBox)

/-- Models `PDFPage.getBleedBox`: `this.bleedBox ? [...this.bleedBox] :
undefined`. -/
def getBleedBox (p : PageBoxes) (st : BoxStore) : Option Nat × BoxStore :=
  match p.bleedBox with
  | none => (none, st)
  | some a => ((allocArr st (readArr st a)).1, (allocArr st (readArr st a)).2)
      |> fun r => (some r.1, r.2)

/-- Models `PDFPage.getTrimBox`. -/
def getTrimBox (p : PageBoxes) (st : BoxStore) : Option Nat × BoxStore :=
  match p.trimBox with
  | none => (none, st)
  | some a => (some (allocArr st (readArr st a)).1, (allocArr st (readArr st a)).2)

/-- Models `PDFPage.getArtBox`. -/
def getArtBox (p : PageBoxes) (st : BoxStore) : Option Nat × BoxStore :=
  match p.artBox with
  | none => (none, st)
  | some a => (some (allocArr st (readArr st a)).1, (allocArr st (readArr st a)).2)

/-- The addresses stored in the page record. -/
def pageAddrs (p : PageBoxes) : List Nat :=
  [p.mediaBox, p.cropBox] ++ p.bleedBox.toList ++ p.trimBox.toList ++ p.artBox.toList

/-- Every stored address points into the store. -/
def validPage (p : PageBoxes) (st : BoxStore) : Prop :=
  ∀ a ∈ pageAddrs p, a < st.length

theorem readArr_alloc_self (st : BoxStore) (xs : List Int) :
    readArr (st ++ [xs]) st.length = xs := by
  simp [readArr]

theorem readArr_alloc_old (st : BoxStore) (xs : List Int) (a : Nat)
    (ha : a < st.length) : readArr (st ++ [xs]) a = readArr st a := by
  simp [readArr, List.getElem?_append_left ha]

theorem readArr_write_ne (st : BoxStore) (a b : Nat) (xs : List Int)
    (hne : a ≠ b) : readArr (writeArr st b xs) a = readArr st a := by
  simp [readArr, writeArr, List.getElem?_set_ne (fun h => hne h.symm)]

/-- The core fact behind every box getter: the spread copy lives at a fresh
address, holds the same elements, and writing through it leaves every valid
address of the original store unchanged. -/
theorem spread_copy_spec (st : BoxStore) (a : Nat) (ha : a < st.length) :
    (allocArr st (readArr st a)).1 ≠ a
    ∧ readArr (allocArr st (readArr st a)).2 (allocArr st (readArr st a)).1 = readArr st a
    ∧ ∀ xs : List Int, ∀ b : Nat, b < st.length →
        readArr (writeArr (allocArr st (readArr st a)).2 (allocArr st (readArr st a)).1 xs) b =
          readArr st b := by
  refine ⟨by simp [allocArr]; omega, ?_, ?_⟩
  · simp [allocArr, readArr_alloc_self]
  · intro xs b hb
    have h1 : readArr (writeArr (st ++ [readArr st a]) st.length xs) b =
        readArr (st ++ [readArr st a]) b :=
      readArr_write_ne _ _ _ _ (by omega)
    simp [allocArr, h1, readArr_alloc_old st _ b hb]

theorem readArr_alloc (st : BoxStore) (xs : List Int) :
    readArr (allocArr st xs).2 (allocArr st xs).1 = xs := by
  simp [allocArr, readArr_alloc_self]

theorem getter_spec_at (p : PageBoxes) (st : BoxStore) (hv : validPage p st) (a : Nat)
    (ha : a ∈ pageAddrs p) :
    (allocArr st (readArr st a)).1 ∉ pageAddrs p
    ∧ readArr (allocArr st (readArr st a)).2 (allocArr st (readArr st a)).1 = readArr st a
    ∧ ∀ xs : List Int, ∀ b ∈ pageAddrs p,
        readArr (writeArr (allocArr st (readArr st a)).2 (allocArr st (readArr st a)).1 xs) b
          = readArr st b := by
  obtain ⟨hfresh, hcopy, hframe⟩ := spread_copy_spec st a (hv a ha)
  refine ⟨?_, hcopy, ?_⟩
  · intro hmem
    have := hv _ hmem
    simp [allocArr] at this
  · intro xs b hb
    exact hframe xs b (hv b hb)

/-- C3 counterexample: the claim "in every resolver state shallow resolution
returns the table IndirectObject verbatim with nested references unresolved"
is false after an earlier deep resolution of the same key: the shallow call
then returns the cached (mutated) object whose value has the nested reference
`2 0 R` replaced by the resolved object. -/
theorem claim_C3_counterexample :
    resolveIndirectReference 3 ((1 : Int), (0 : Int)) true true exStateA =
      .ok (((1 : Int), (0 : Int)), exStateA2)
    ∧ resolveIndirectReference 1 ((1 : Int), (0 : Int)) false true exStateA2 =
      .ok (((1 : Int), (0 : Int)), exStateA2)
    ∧ tlookup exStateA2.table (1, 0) = some (.dict [("A", .ptr (2, 0))])
    ∧ some (PDFObject.dict [("A", .ptr (2, 0))]) ≠
        some (PDFObject.dict [("A", .ref 2 0)]) := by
  refine ⟨?_, ?_, ?_, ?_⟩
  · simp [resolveIndirectReference, deepResolve, deepResolveEntries, exStateA, exStateA2,
      exTableA, tlookup, tupdate, List.erase]
  · simp [resolveIndirectReference, exStateA2]
  · simp [exStateA2, tlookup]
  · simp

/-- The S4 circular table: objects 12 and 13 reference each other. -/
def exTableCyc : List ((Int × Int) × PDFObject) :=
  [((12, 0), .dict [("Reference", .ref 13 0)]),
   ((13, 0), .dict [("Reference", .ref 12 0)])]

def exStateCyc : RState := { table := exTableCyc, cache := [], stack := [] }

/-- The resolver state at the closing edge of the S4 cycle: key (12,0) is on
the visiting stack, not yet cached. -/
def exStateCycMid : RState := { table := exTableCyc, cache := [], stack := [(12, 0)] }


/-- C10: each box getter returns a fresh copy of the stored rectangle: the
returned address is none of the page's stored addresses, its contents equal
the stored rectangle, and writing through the returned address changes
neither any stored box nor the contents returned by a later getter call. -/
theorem claim_C10 (p : PageBoxes) (st : BoxStore) (hv : validPage p st) :
    ((getMediaBox p st).1 ∉ pageAddrs p
      ∧ readArr (getMediaBox p st).2 (getMediaBox p st).1 = readArr st p.mediaBox
      ∧ ∀ xs : List Int,
          (∀ b ∈ pageAddrs p,
            readArr (writeArr (getMediaBox p st).2 (getMediaBox p st).1 xs) b = readArr st b)
          ∧ readArr (getMediaBox p (writeArr (getMediaBox p st).2 (getMediaBox p st).1 xs)).2
                (getMediaBox p (writeArr (getMediaBox p st).2 (getMediaBox p st).1 xs)).1
              = readArr st p.mediaBox)
    ∧ ((getCropBox p st).1 ∉ pageAddrs p
      ∧ readArr (getCropBox p st).2 (getCropBox p st).1 = readArr st p.cropBox
      ∧ ∀ xs : List Int,
          (∀ b ∈ pageAddrs p,
            readArr (writeArr (getCropBox p st).2 (getCropBox p st).1 xs) b = readArr st b)
          ∧ readArr (getCropBox p (writeArr (getCropBox p st).2 (getCropBox p st).1 xs)).2
                (getCropBox p (writeArr (getCropBox p st).2 (getCropBox p st).1 xs)).1
              = readArr st p.cropBox)
    ∧ (∀ a : Nat, p.bleedBox = some a → ∀ c : Nat, (getBleedBox p st).1 = some c →
        c ∉ pageAddrs p
        ∧ readArr (getBleedBox p st).2 c = readArr st a
        ∧ ∀ xs : List Int, ∀ b ∈ pageAddrs p,
            readArr (writeArr (getBleedBox p st).2 c xs) b = readArr st b)
    ∧ (∀ a : Nat, p.trimBox = some a → ∀ c : Nat, (getTrimBox p st).1 = some c →
        c ∉ pageAddrs p
        ∧ readArr (getTrimBox p st).2 c = readArr st a
        ∧ ∀ xs : List Int, ∀ b ∈ pageAddrs p,
            readArr (writeArr (getTrimBox p st).2 c xs) b = readArr st b)
    ∧ (∀ a : Nat, p.artBox = some a → ∀ c : Nat, (getArtBox p st).1 = some c →
        c ∉ pageAddrs p
        ∧ readArr (getArtBox p st).2 c = readArr st a
        ∧ ∀ xs : List Int, ∀ b ∈ pageAddrs p,
            readArr (writeArr (getArtBox p st).2 c xs) b = readArr st b) := by
  have hma : p.mediaBox ∈ pageAddrs p := by simp [pageAddrs]
  have hca : p.cropBox ∈ pageAddrs p := by simp [pageAddrs]
  refine ⟨?_, ?_, ?_, ?_, ?_⟩
  · obtain ⟨hfresh, hcopy, hframe⟩ := getter_spec_at p st hv p.mediaBox hma
    refine ⟨hfresh, hcopy, ?_⟩
    intro xs
    refine ⟨hframe xs, ?_⟩
    simp only [getMediaBox]
    rw [readArr_alloc]
    exact hframe xs p.mediaBox hma
  · obtain ⟨hfresh, hcopy, hframe⟩ := getter_spec_at p st hv p.cropBox hca
    refine ⟨hfresh, hcopy, ?_⟩
    intro xs
    refine ⟨hframe xs, ?_⟩
    simp only [getCropBox]
    rw [readArr_alloc]
    exact hframe xs p.cropBox hca
  · intro a haeq c hc
    have hmem : a ∈ pageAddrs p := by simp [pageAddrs, haeq]
    obtain ⟨hfresh, hcopy, hframe⟩ := getter_spec_at p st hv a hmem
    simp only [getBleedBox, haeq, Option.some.injEq] at hc
    subst hc
    exact ⟨hfresh, by simpa [getBleedBox, haeq] using hcopy,
      fun xs b hb => by simpa [getBleedBox, haeq] using hframe xs b hb⟩
  · intro a haeq c hc
    have hmem : a ∈ pageAddrs p := by simp [pageAddrs, haeq]
    obtain ⟨hfresh, hcopy, hframe⟩ := getter_spec_at p st hv a hmem
    simp only [getTrimBox, haeq, Option.some.injEq] at hc
    subst hc
    exact ⟨hfresh, by simpa [getTrimBox, haeq] using hcopy,
      fun xs b hb => by simpa [getTrimBox, haeq] using hframe xs b hb⟩
  · intro a haeq c hc
    have hmem : a ∈ pageAddrs p := by simp [pageAddrs, haeq]
    obtain ⟨hfresh, hcopy, hframe⟩ := getter_spec_at p st hv a hmem
    simp only [getArtBox, haeq, Option.some.injEq] at hc
    subst hc
    exact ⟨hfresh, by simpa [getArtBox, haeq] using hcopy,
      fun xs b hb => by simpa [getArtBox, haeq] using hframe xs b hb⟩

/-- C1 (amended): shallow resolution leaves the object table (indeed the
whole resolver state) unchanged for every on-cycle setting; deep resolution
does not — it rewrites the stored IndirectObject's value in place at the
resolved key, as the concrete deep run on `exStateA` shows. -/
theorem claim_C1 :
    (∀ (f : Nat) (k : Int × Int) (c : Bool) (s : RState) (k' : Int × Int) (s' : RState),
      resolveIndirectReference f k false c s = .ok (k', s') → s'.table = s.table)
    ∧ resolveIndirectReference 3 ((1 : Int), (0 : Int)) true true exStateA =
        .ok (((1 : Int), (0 : Int)), exStateA2)
    ∧ exStateA2.table ≠ exStateA.table := by
  refine ⟨?_, ?_, ?_⟩
  · intro f k c s k' s' h
    rw [(shallow_preserves_state f k c s k' s' h).2]
  · simp [resolveIndirectReference, deepResolve, deepResolveEntries, exStateA, exStateA2,
      exTableA, tlookup, tupdate, List.erase]
  · simp [exStateA, exStateA2, exTableA]

theorem claim_C1_witness :
    resolveIndirectReference 1 ((1 : Int), (0 : Int)) false true exStateA =
      .ok (((1 : Int), (0 : Int)), exStateA)
    ∧ exStateA.table = exStateA.table := by
  have h : resolveIndirectReference 1 ((1 : Int), (0 : Int)) false true exStateA =
      .ok (((1 : Int), (0 : Int)), exStateA) := by
    simp [resolveIndirectReference, exStateA, exTableA, tlookup, List.erase]
  exact ⟨h, claim_C1.1 1 (1, 0) true exStateA (1, 0) exStateA h⟩

/-- C2 (amended): deep resolution always terminates — any fuel exceeding the
number of table keys off the visiting stack is never exhausted, for cyclic
graphs in particular; when a reference re-enters the visiting set, Silent
mode returns the table's IndirectObject with the resolver state untouched
(placing the alias without resolving further at that point) and Error mode
raises CircularReferenceError on that closing edge.  Cycles reachable only
through stream dictionaries are not traversed at all (see the
counterexample), which is the one correction to the original claim. -/
theorem claim_C2 :
    (∀ (f : Nat) (k : Int × Int) (d c : Bool) (s : RState),
      keysOutside s < f → resolveIndirectReference f k d c s ≠ .out)
    ∧ (∀ (f : Nat) (k : Int × Int) (d : Bool) (s : RState) (v : PDFObject),
      k ∉ s.cache → tlookup s.table k = some v → k ∈ s.stack →
        resolveIndirectReference (f + 1) k d true s = .ok (k, s))
    ∧ (∀ (f : Nat) (k : Int × Int) (d : Bool) (s : RState) (v : PDFObject),
      k ∉ s.cache → tlookup s.table k = some v → k ∈ s.stack →
        resolveIndirectReference (f + 1) k d false s = .err (.circular k)) :=
  ⟨resolver_noOut.1,
   fun f k d s v hc hl hs => (closing_edge f k d s v hc hl hs).1,
   fun f k d s v hc hl hs => (closing_edge f k d s v hc hl hs).2⟩

theorem claim_C2_witness :
    (keysOutside exStateCyc < 3
      ∧ resolveIndirectReference 3 ((12 : Int), (0 : Int)) true true exStateCyc ≠ .out)
    ∧ ((12, 0) ∉ exStateCycMid.cache
      ∧ tlookup exStateCycMid.table (12, 0) = some (.dict [("Reference", .ref 13 0)])
      ∧ ((12 : Int), (0 : Int)) ∈ exStateCycMid.stack
      ∧ resolveIndirectReference 2 ((12 : Int), (0 : Int)) true true exStateCycMid =
          .ok ((12, 0), exStateCycMid)
      ∧ resolveIndirectReference 2 ((12 : Int), (0 : Int)) true false exStateCycMid =
          .err (.circular (12, 0))) := by
  have h1 : keysOutside exStateCyc < 3 := by decide
  have hc : ((12 : Int), (0 : Int)) ∉ exStateCycMid.cache := by simp [exStateCycMid]
  have hl : tlookup exStateCycMid.table (12, 0) = some (.dict [("Reference", .ref 13 0)]) := by
    simp [exStateCycMid, exTableCyc, tlookup]
  have hs : ((12 : Int), (0 : Int)) ∈ exStateCycMid.stack := by simp [exStateCycMid]
  exact ⟨⟨h1, claim_C2.1 3 (12, 0) true true exStateCyc h1⟩,
    hc, hl, hs,
    claim_C2.2.1 1 (12, 0) true exStateCycMid (.dict [("Reference", .ref 13 0)]) hc hl hs,
    claim_C2.2.2 1 (12, 0) true exStateCycMid (.dict [("Reference", .ref 13 0)]) hc hl hs⟩

/-- C3 (amended): in a resolver state whose visiting stack is empty and whose
table still holds value v at the key — in particular in a fresh resolver,
before any deep resolution has mutated the entry — shallow resolution
returns the table's IndirectObject with the state unchanged, so the returned
value is exactly the stored v with nested references unresolved.  After an
earlier deep resolution of the same key the stored value has been rewritten
and the shallow call returns that mutated object instead (see the
counterexample). -/
theorem claim_C3 :
    ∀ (f : Nat) (c : Bool) (s : RState) (k : Int × Int) (v : PDFObject),
      s.stack = [] → tlookup s.table k = some v →
      resolveIndirectReference (f + 1) k false c s = .ok (k, s) :=
  fun f c s k v h1 h2 => shallow_fresh f c s k v h1 h2

theorem claim_C3_witness :
    (exStateA.stack = [] ∧ tlookup exStateA.table (2, 0) = some (.num 7))
    ∧ resolveIndirectReference 1 ((2 : Int), (0 : Int)) false true exStateA =
        .ok ((2, 0), exStateA) := by
  have h1 : exStateA.stack = [] := rfl
  have h2 : tlookup exStateA.table (2, 0) = some (.num 7) := by
    simp [exStateA, exTableA, tlookup]
  exact ⟨⟨h1, h2⟩, claim_C3 0 true exStateA (2, 0) (.num 7) h1 h2⟩

/-- C9: deep silent resolution is idempotent: whenever a deep silent call
returns a result, calling again on the returned state gives exactly the same
key and state back (the second call is a cache hit or takes the same silent
branch), so the two results are equal structures. -/
theorem claim_C9 (f : Nat) (k : Int × Int) (s : RState) (k' : Int × Int)
    (s1 : RState)
    (h : resolveIndirectReference f k true true s = .ok (k', s1)) :
    ∀ f2 : Nat, resolveIndirectReference (f2 + 1) k true true s1 = .ok (k', s1) :=
  deep_idempotent f k s k' s1 h

theorem claim_C9_witness :
    resolveIndirectReference 3 ((1 : Int), (0 : Int)) true true exStateA =
      .ok (((1 : Int), (0 : Int)), exStateA2)
    ∧ resolveIndirectReference 1 ((1 : Int), (0 : Int)) true true exStateA2 =
        .ok (((1 : Int), (0 : Int)), exStateA2) := by
  have h : resolveIndirectReference 3 ((1 : Int), (0 : Int)) true true exStateA =
      .ok (((1 : Int), (0 : Int)), exStateA2) := by
    simp [resolveIndirectReference, deepResolve, deepResolveEntries, exStateA, exStateA2,
      exTableA, tlookup, tupdate, List.erase]
  exact ⟨h, claim_C9 3 (1, 0) exStateA (1, 0) exStateA2 h 0⟩

/-- C6 (amended): the string readers never raise an error: an unterminated
literal string consumes the buffer to its end and yields a STRING token of
the bytes decoded so far (stated for bodies free of parentheses and
backslashes, where the decoded bytes are the body verbatim), and an
unterminated hex string yields a HEX_STRING token decoding all collected
digits. -/
theorem claim_C6 :
    (∀ body : List Nat, (∀ b ∈ body, b ≠ 40 ∧ b ≠ 41 ∧ b ≠ 92) →
      readLiteralString (40 :: body) =
        ({ type := .STRING, codeUnits := body.map fromCharCode }, []))
    ∧ (∀ body : List Nat, (∀ b ∈ body, b ≠ 62 ∧ isWhitespace b = false) →
        body.length % 2 = 0 →
      readHexString (60 :: body) =
        ({ type := .HEX_STRING, codeUnits := hexPairs body }, [])) :=
  ⟨readLiteralString_unterminated, readHexString_unterminated⟩

theorem claim_C6_witness :
    ((∀ b ∈ [97, 98, 99], b ≠ 40 ∧ b ≠ 41 ∧ b ≠ 92)
      ∧ readLiteralString (40 :: [97, 98, 99]) =
          ({ type := .STRING, codeUnits := [97, 98, 99].map fromCharCode }, []))
    ∧ ((∀ b ∈ [52, 49], b ≠ 62 ∧ isWhitespace b = false)
      ∧ ([52, 49] : List Nat).length % 2 = 0
      ∧ readHexString (60 :: [52, 49]) =
          ({ type := .HEX_STRING, codeUnits := hexPairs [52, 49] }, [])) := by
  refine ⟨⟨by decide, claim_C6.1 [97, 98, 99] (by decide)⟩,
    by decide, by decide, claim_C6.2 [52, 49] (by decide) (by decide)⟩

/-- C7 (amended): a one- to three-digit octal escape decodes to the code unit
equal to the octal value itself (`parseInt(..., 8)` passed through
`fromCharCode`, which reduces modulo 2^16 — never reached since the value is
at most 511); the value is NOT reduced modulo 256, so escapes above `\377`
decode above 255 (see the counterexample at `\777`). -/
theorem claim_C7 :
    (∀ (d1 : Nat) (rest : List Nat), isOctalDigit d1 = true →
      readLiteralString (40 :: 92 :: d1 :: 41 :: rest) =
        ({ type := .STRING, codeUnits := [d1 - 48] }, rest))
    ∧ (∀ (d1 d2 : Nat) (rest : List Nat),
        isOctalDigit d1 = true → isOctalDigit d2 = true →
      readLiteralString (40 :: 92 :: d1 :: d2 :: 41 :: rest) =
        ({ type := .STRING, codeUnits := [(d1 - 48) * 8 + (d2 - 48)] }, rest))
    ∧ (∀ (d1 d2 d3 : Nat) (rest : List Nat),
        isOctalDigit d1 = true → isOctalDigit d2 = true → isOctalDigit d3 = true →
      readLiteralString (40 :: 92 :: d1 :: d2 :: d3 :: 41 :: rest) =
        ({ type := .STRING,
           codeUnits := [(d1 - 48) * 64 + (d2 - 48) * 8 + (d3 - 48)] }, rest)) :=
  ⟨readLiteralString_octal1, readLiteralString_octal2, readLiteralString_octal3⟩

theorem claim_C7_witness :
    (isOctalDigit 53 = true
      ∧ readLiteralString (40 :: 92 :: 53 :: 41 :: []) =
          ({ type := .STRING, codeUnits := [53 - 48] }, []))
    ∧ (readLiteralString (40 :: 92 :: 53 :: 54 :: 41 :: []) =
          ({ type := .STRING, codeUnits := [(53 - 48) * 8 + (54 - 48)] }, []))
    ∧ (readLiteralString (40 :: 92 :: 53 :: 54 :: 55 :: 41 :: []) =
          ({ type := .STRING,
             codeUnits := [(53 - 48) * 64 + (54 - 48) * 8 + (55 - 48)] }, [])) := by
  refine ⟨⟨by decide, claim_C7.1 53 [] (by decide)⟩,
    claim_C7.2.1 53 54 [] (by decide) (by decide),
    claim_C7.2.2 53 54 55 [] (by decide) (by decide) (by decide)⟩

/-- The resources record read from the empty resources dictionary. -/
def resNullC8 : PDFResources :=
  { font := .null, xObject := .null, extGState := .null, colorSpace := .null,
    pattern := .null, shading := .null, procSet := .null, properties := .null }

/-- The page record built from `pageDictC8`. -/
def pageRecC8 : PDFPageRec :=
  { mediaBox := some [some (.num 0), some (.num 0), some (.num 612), some (.num 792)],
    cropBox := some [some (.num 0), some (.num 0), some (.num 612), some (.num 792)],
    bleedBox := none, trimBox := none, artBox := none, parent := none,
    resources := resNullC8, contents := none, annots := none,
    rotate := .num 100, userUnit := .num 1 }

/-- The resolver state after the constructor's resources resolution. -/
def stateC8After : RState := { table := tableC4, cache := [(3, 0)], stack := [] }

theorem claim_C8_witness :
    (mkPDFPage 5 pageDictC8 stateC4 = .ok (pageRecC8, stateC8After)
      ∧ dlookup pageDictC8 "Rotate" = some (.num 100) ∧ (100 : Int) ≠ 0)
    ∧ pageRecC8.rotate = .num 100 := by
  have h : mkPDFPage 5 pageDictC8 stateC4 = .ok (pageRecC8, stateC8After) := by
    simp [mkPDFPage, resolveResources, resolveJS, resolveBox, refKeyOf,
      resolveIndirectReference, deepResolve, deepResolveEntries, deepResolveList,
      stateC4, tableC4, pageDictC8, pageRecC8, stateC8After, resNullC8, tlookup, tupdate,
      dlookup, jsFalsy, jsIndex, List.erase]
  have hr : dlookup pageDictC8 "Rotate" = some (.num 100) := by
    simp [pageDictC8, dlookup]
  exact ⟨⟨h, hr, by omega⟩,
    claim_C8 5 pageDictC8 stateC4 pageRecC8 stateC8After 100 h hr (by omega)⟩

/-- A concrete page with media, crop and bleed boxes in a three-array heap. -/
def pageBoxesW : PageBoxes :=
  { mediaBox := 0, cropBox := 1, bleedBox := some 2, trimBox := none, artBox := none }

def boxStoreW : BoxStore := [[0, 0, 612, 792], [10, 10, 602, 782], [1, 2, 3, 4]]

theorem claim_C10_witness :
    validPage pageBoxesW boxStoreW
    ∧ (getMediaBox pageBoxesW boxStoreW).1 ∉ pageAddrs pageBoxesW := by
  have hv : validPage pageBoxesW boxStoreW := by
    intro a ha
    simp [pageAddrs, pageBoxesW] at ha
    rcases ha with rfl | rfl | rfl <;> simp [boxStoreW]
  exact ⟨hv, (claim_C10 pageBoxesW boxStoreW hv).1.1⟩
